import Mathlib

/-!
Verification of the orchestration layer of the `redis_func_cache` library.

The development shallowly embeds the Python source:

* `mixins/hash.py` (`AbstractHashMixin.calc_hash` instantiated with the
  `JsonMd5HashMixin` configuration, together with a faithful model of
  `hashlib`'s MD5 and of `json.dumps` on simple values),
* `policies/base.py` (the four `calc_keys` implementations),
* `policies/abstract.py` (`AbstractPolicy.lua_scripts` caching),
* `cache.py` (`__init__` validation, `get_client`, `make_bound`,
  `prepare`, `exec`, the mode context managers and `get_mode`).

Bytes are modelled as `List Nat` with every element below 256; machine
integers use `Nat` with explicit reduction modulo `2 ^ 32` where Python's
`hashlib` works on 32-bit words.
-/

set_option maxRecDepth 100000

set_option maxHeartbeats 1000000

namespace RedisFuncCacheProof

/-- Byte strings: lists of naturals, each intended to be below 256. -/
abbrev Bytes := List Nat

/-- Reduce a natural number to a 32-bit word, mirroring 32-bit overflow
in the MD5 compression function. -/
def m32 (x : Nat) : Nat := x % 4294967296

/-- Left rotation of a 32-bit word. -/
def rotl32 (x s : Nat) : Nat := m32 (x <<< s) ||| (x >>> (32 - s))

/-- Bitwise complement of a 32-bit word via xor with the all-ones mask. -/
def not32 (x : Nat) : Nat := x ^^^ 4294967295

/-- Little-endian 8-byte encoding of a natural number (used for the MD5
length suffix, taken modulo `2 ^ 64` as in the MD5 specification). -/
def le64 (n : Nat) : Bytes := (List.range 8).map fun i => (n >>> (8 * i)) % 256

/-- Little-endian 4-byte encoding of a 32-bit word. -/
def le32 (n : Nat) : Bytes := (List.range 4).map fun i => (n >>> (8 * i)) % 256

/-- The 64 MD5 sine-derived round constants. -/
def md5K : List Nat :=
  [3614090360, 3905402710, 606105819, 3250441966, 4118548399, 1200080426, 2821735955, 4249261313,
   1770035416, 2336552879, 4294925233, 2304563134, 1804603682, 4254626195, 2792965006, 1236535329,
   4129170786, 3225465664, 643717713, 3921069994, 3593408605, 38016083, 3634488961, 3889429448,
   568446438, 3275163606, 4107603335, 1163531501, 2850285829, 4243563512, 1735328473, 2368359562,
   4294588738, 2272392833, 1839030562, 4259657740, 2763975236, 1272893353, 4139469664, 3200236656,
   681279174, 3936430074, 3572445317, 76029189, 3654602809, 3873151461, 530742520, 3299628645,
   4096336452, 1126891415, 2878612391, 4237533241, 1700485571, 2399980690, 4293915773, 2240044497,
   1873313359, 4264355552, 2734768916, 1309151649, 4149444226, 3174756917, 718787259, 3951481745]

/-- The 64 MD5 per-round left-rotation amounts. -/
def md5S : List Nat :=
  [7, 12, 17, 22, 7, 12, 17, 22, 7, 12, 17, 22, 7, 12, 17, 22,
   5, 9, 14, 20, 5, 9, 14, 20, 5, 9, 14, 20, 5, 9, 14, 20,
   4, 11, 16, 23, 4, 11, 16, 23, 4, 11, 16, 23, 4, 11, 16, 23,
   6, 10, 15, 21, 6, 10, 15, 21, 6, 10, 15, 21, 6, 10, 15, 21]

/-- The MD5 round mixing function, by round index. -/
def md5F (i b c d : Nat) : Nat :=
  if i < 16 then (b &&& c) ||| (not32 b &&& d)
  else if i < 32 then (d &&& b) ||| (not32 d &&& c)
  else if i < 48 then b ^^^ c ^^^ d
  else c ^^^ (b ||| not32 d)

/-- The MD5 message-word schedule, by round index. -/
def md5G (i : Nat) : Nat :=
  if i < 16 then i
  else if i < 32 then (5 * i + 1) % 16
  else if i < 48 then (3 * i + 5) % 16
  else (7 * i) % 16

/-- One MD5 round applied to the state quadruple. -/
def md5Step (msgWords : List Nat) (st : Nat × Nat × Nat × Nat) (i : Nat) :
    Nat × Nat × Nat × Nat :=
  let a := st.1
  let b := st.2.1
  let c := st.2.2.1
  let d := st.2.2.2
  let f := m32 (md5F i b c d + a + md5K.getD i 0 + msgWords.getD (md5G i) 0)
  (d, m32 (b + rotl32 f (md5S.getD i 0)), b, c)

/-- Decode a 64-byte block into sixteen little-endian 32-bit words. -/
def md5Words (block : Bytes) : List Nat :=
  (List.range 16).map fun j =>
    block.getD (4 * j) 0 + 256 * block.getD (4 * j + 1) 0 +
      65536 * block.getD (4 * j + 2) 0 + 16777216 * block.getD (4 * j + 3) 0

/-- Process one 64-byte block: 64 rounds, then add the result into the
running state, word by word, modulo `2 ^ 32`. -/
def md5Block (st : Nat × Nat × Nat × Nat) (block : Bytes) : Nat × Nat × Nat × Nat :=
  let w := md5Words block
  let r := (List.range 64).foldl (md5Step w) st
  (m32 (st.1 + r.1), m32 (st.2.1 + r.2.1), m32 (st.2.2.1 + r.2.2.1), m32 (st.2.2.2 + r.2.2.2))

/-- MD5 padding: a `0x80` byte, zeros to 56 mod 64, then the bit length
as a little-endian 64-bit quantity. -/
def md5Pad (msg : Bytes) : Bytes :=
  let l := msg.length
  let k := (64 + 56 - ((l + 1) % 64)) % 64
  msg ++ [128] ++ List.replicate k 0 ++ le64 (l * 8)

/-- Split a byte string into 64-byte blocks, structurally recursing on a
fuel bound (each step consumes at least one byte, so the input length is
enough fuel). -/
def chunks64Fuel : Nat → Bytes → List Bytes
  | 0, _ => []
  | _, [] => []
  | fuel + 1, b :: bs => ((b :: bs).take 64) :: chunks64Fuel fuel ((b :: bs).drop 64)

/-- Split a byte string into 64-byte blocks. -/
def chunks64 (l : Bytes) : List Bytes := chunks64Fuel l.length l

/-- The MD5 digest of a byte string, as 16 bytes, mirroring
`hashlib.new("md5")` / `.digest()`. -/
def md5 (msg : Bytes) : Bytes :=
  let st := (chunks64 (md5Pad msg)).foldl md5Block
    (1732584193, 4023233417, 2562383102, 271733878)
  le32 st.1 ++ le32 st.2.1 ++ le32 st.2.2.1 ++ le32 st.2.2.2

/-- Simple JSON-serializable Python scalar values: numbers and strings.
These are the argument values the hash serializer is applied to. -/
inductive JVal where
  | num (n : Int)
  | str (s : String)
deriving DecidableEq, Repr

/-- Model of `json.dumps` on a simple scalar value. -/
def JVal.json : JVal → String
  | .num n => toString n
  | .str s => "\"" ++ s ++ "\""

/-- Comma-joined rendering of a JSON sequence, with Python's default
`", "` item separator. -/
def jsonSeq : List JVal → String
  | [] => ""
  | [x] => x.json
  | x :: y :: rest => x.json ++ ", " ++ jsonSeq (y :: rest)

/-- Model of `json.dumps` on a positional-argument tuple. -/
def jsonArgs (xs : List JVal) : String := "[" ++ jsonSeq xs ++ "]"

/-- One `"name": value` member of a JSON object. -/
def jsonEntry (kv : String × JVal) : String := "\"" ++ kv.1 ++ "\": " ++ kv.2.json

/-- Comma-joined rendering of JSON object members, in insertion order. -/
def jsonObjSeq : List (String × JVal) → String
  | [] => ""
  | [kv] => jsonEntry kv
  | kv :: kv2 :: rest => jsonEntry kv ++ ", " ++ jsonObjSeq (kv2 :: rest)

/-- Model of `json.dumps` on a keyword-argument dict. A Python dict
preserves insertion order and `json.dumps` does not sort keys, so the
rendering follows the order the entries were supplied in. -/
def jsonKwds (kvs : List (String × JVal)) : String := "\x7b" ++ jsonObjSeq kvs ++ "\x7d"

/-- UTF-8 bytes of an ASCII string (mirrors `str.encode()` on ASCII input). -/
def strBytes (s : String) : Bytes := s.data.map Char.toNat

/-- Model of a Python function as seen by the cache: fully-qualified
identity (`__module__`, `__qualname__`), the `co_code` bytecode fingerprint
used by `get_callable_bytecode`, and the declared parameter names in
order (all positional-or-keyword, no defaults). -/
structure PyFunc where
  module : String
  qualname : String
  bytecode : Bytes
  params : List String
deriving DecidableEq, Repr

/-- The `f"{f.__module__}:{f.__qualname__}"` identity string. -/
def funcFullname (f : PyFunc) : String := f.module ++ ":" ++ f.qualname

/-- The contribution of an optional argument structure to the hashed
message: absent (`None`) structures contribute nothing, present ones
contribute their serialized bytes. -/
def serializedOpt (g : α → String) : Option α → Bytes
  | none => []
  | some a => strBytes (g a)

/-- Embedding of `AbstractHashMixin.calc_hash` instantiated with the
`JsonMd5HashMixin` configuration (`algorithm="md5"`,
`serializer=lambda x: json.dumps(x).encode()`, `decoder=None`,
`use_bytecode=True`).  The incremental `hash.update` calls amount to
hashing the concatenation of the updated chunks. -/
def calc_hash (f : PyFunc) (args : Option (List JVal))
    (kwds : Option (List (String × JVal))) : Bytes :=
  md5 (strBytes (funcFullname f) ++ f.bytecode
    ++ serializedOpt jsonArgs args ++ serializedOpt jsonKwds kwds)

/-- The base64 alphabet. -/
def b64Alphabet : List Char :=
  "ABCDEFGHIJKLMNOPQRSTUVWXYZabcdefghijklmnopqrstuvwxyz0123456789+/".data

/-- Base64 character for a 6-bit group. -/
def b64Char (i : Nat) : Char := b64Alphabet.getD i 'A'

/-- Standard base64 encoding of a byte string (with padding). -/
def b64Groups : Bytes → List Char
  | [] => []
  | [a] => [b64Char (a >>> 2), b64Char ((a % 4) <<< 4), '=', '=']
  | [a, b] =>
    [b64Char (a >>> 2), b64Char (((a % 4) <<< 4) ||| (b >>> 4)), b64Char ((b % 16) <<< 2), '=']
  | a :: b :: c :: rest =>
    b64Char (a >>> 2) :: b64Char (((a % 4) <<< 4) ||| (b >>> 4)) ::
      b64Char (((b % 16) <<< 2) ||| (c >>> 6)) :: b64Char (c % 64) :: b64Groups rest

/-- Strip trailing padding characters, as `bytes.rstrip(b"=")` does. -/
def rstripPad (l : List Char) : List Char :=
  (l.reverse.dropWhile (fun c => c = '=')).reverse

/-- Embedding of `utils.b64digest`: base64 of a digest with `"="`
padding stripped. -/
def b64digest (d : Bytes) : String := String.mk (rstripPad (b64Groups d))

/-- Embedding of `BaseSinglePolicy.calc_keys`: the static key pair
`f"{prefix}{name}:{key}"` suffixed by `":0"` and `":1"`. -/
def baseSingleCalcKeys (pfx name key : String) : String × String :=
  let k := pfx ++ name ++ ":" ++ key
  (k ++ ":0", k ++ ":1")

/-- Embedding of `BaseClusterSinglePolicy.calc_keys`: as the single
variant but with `f"{name}:{key}"` wrapped in a cluster hash tag. -/
def clusterSingleCalcKeys (pfx name key : String) : String × String :=
  let k := pfx ++ "\x7b" ++ name ++ ":" ++ key ++ "\x7d"
  (k ++ ":0", k ++ ":1")

/-- The per-function checksum of `BaseMultiplePolicy.calc_keys`:
base64 of `md5(fullname)` updated with the function bytecode. -/
def funcChecksum (f : PyFunc) : String :=
  b64digest (md5 (strBytes (funcFullname f) ++ f.bytecode))

/-- Embedding of `BaseMultiplePolicy.calc_keys`. -/
def multipleCalcKeys (pfx name key : String) (f : PyFunc) : String × String :=
  let k := pfx ++ name ++ ":" ++ key ++ ":" ++ funcFullname f ++ "#" ++ funcChecksum f
  (k ++ ":0", k ++ ":1")

/-- Embedding of `BaseClusterMultiplePolicy.calc_keys`: the checksum is
wrapped in a cluster hash tag. -/
def clusterMultipleCalcKeys (pfx name key : String) (f : PyFunc) : String × String :=
  let k := pfx ++ name ++ ":" ++ key ++ ":" ++ funcFullname f ++ "#" ++
    "\x7b" ++ funcChecksum f ++ "\x7d"
  (k ++ ":0", k ++ ":1")

/-- Embedding of `RedisFuncCache.Mode`: three independent flags, all
defaulting to true. -/
structure Mode where
  read : Bool := true
  write : Bool := true
  exec : Bool := true
deriving DecidableEq, Repr

/-- Model of `inspect.Signature.bind` for a function whose parameters are
all positional-or-keyword without defaults: positional arguments fill the
leading parameters, every remaining parameter must be supplied by a
distinct keyword, and unknown or duplicated keywords fail.  The resulting
`BoundArguments.arguments` mapping lists parameters in declaration
order. -/
def pyBind (f : PyFunc) (args : List JVal) (kwds : List (String × JVal)) :
    Option (List (String × JVal)) :=
  if f.params.length < args.length then none
  else
    let posParams := f.params.take args.length
    let restParams := f.params.drop args.length
    if (kwds.map Prod.fst).Nodup ∧ ∀ k ∈ kwds.map Prod.fst, k ∈ restParams then
      if restParams.all fun p => (kwds.lookup p).isSome then
        some (posParams.zip args ++
          restParams.filterMap fun p => (kwds.lookup p).map fun v => (p, v))
      else none
    else none

/-- The positional-exclusion filter of `RedisFuncCache.make_bound`:
keep the entries of `bound.arguments` whose enumeration index is not
excluded. -/
def filterPositional (arguments : List (String × JVal)) (exclPos : List Nat) :
    List (String × JVal) :=
  (arguments.enum.filter fun ia => !(exclPos.contains ia.1)).map Prod.snd

/-- The name-exclusion filter of `RedisFuncCache.make_bound`: keep the
entries whose parameter name is not excluded. -/
def filterNames (arguments : List (String × JVal)) (excl : List String) :
    List (String × JVal) :=
  arguments.filter fun kv => !(excl.contains kv.1)

/-- The two filters of `make_bound`, each applied only when its exclusion
sequence is non-empty (positions first, then names, as in the source). -/
def make_boundArguments (A : List (String × JVal)) (excl : List String)
    (exclPos : List Nat) : List (String × JVal) :=
  let A1 := if exclPos.isEmpty then A else filterPositional A exclPos
  if excl.isEmpty then A1 else filterNames A1 excl

/-- Embedding of `RedisFuncCache.make_bound`.  The outer `Option` is the
possible `TypeError` from `Signature.bind`; the inner `Option` is the
Python return value (`None` when both exclusion sequences are falsy,
otherwise the filtered `BoundArguments`). -/
def make_bound (f : PyFunc) (args : List JVal) (kwds : List (String × JVal))
    (excl : List String) (exclPos : List Nat) :
    Option (Option (List (String × JVal))) :=
  if excl.isEmpty && exclPos.isEmpty then some none
  else (pyBind f args kwds).map fun A => some (make_boundArguments A excl exclPos)

/-- Model of the `BoundArguments.args` property: walk the parameters in
order, collecting values while each parameter is present in `arguments`,
stopping at the first absent one. -/
def boundArgsRec : List String → List (String × JVal) → List JVal
  | [], _ => []
  | p :: ps, A =>
    match A.lookup p with
    | some v => v :: boundArgsRec ps A
    | none => []

/-- Collect the entries of `arguments` for the given parameters, in
parameter order, skipping absent ones. -/
def collectPresent : List String → List (String × JVal) → List (String × JVal)
  | [], _ => []
  | p :: ps, A =>
    match A.lookup p with
    | some v => (p, v) :: collectPresent ps A
    | none => collectPresent ps A

/-- Model of the `BoundArguments.kwargs` property: the entries for the
parameters after the first absent one. -/
def boundKwargsRec : List String → List (String × JVal) → List (String × JVal)
  | [], _ => []
  | p :: ps, A =>
    match A.lookup p with
    | some _ => boundKwargsRec ps A
    | none => collectPresent ps A

/-- The four key-derivation variants of `policies/base.py`. -/
inductive PolicyVariant where
  | single
  | clusterSingle
  | multiple
  | clusterMultiple
deriving DecidableEq, Repr

/-- Dispatch `calc_keys` by policy variant.  The single variants ignore
the function; all variants ignore the call arguments, exactly as in the
source. -/
def policyCalcKeys (v : PolicyVariant) (pfx name key : String) (f : PyFunc) :
    String × String :=
  match v with
  | .single => baseSingleCalcKeys pfx name key
  | .clusterSingle => clusterSingleCalcKeys pfx name key
  | .multiple => multipleCalcKeys pfx name key f
  | .clusterMultiple => clusterMultipleCalcKeys pfx name key f

/-- Embedding of `RedisFuncCache.prepare`: select either the raw call
arguments or the filtered bound view, then derive the key pair and the
signature hash through the policy.  `calc_ext_args` returns `None` for
every shipped policy's default, contributing nothing. -/
def prepare (v : PolicyVariant) (pfx name key : String) (f : PyFunc)
    (args : List JVal) (kwds : List (String × JVal))
    (bound : Option (List (String × JVal))) : (String × String) × Bytes :=
  let hargs := match bound with
    | none => args
    | some A => boundArgsRec f.params A
  let hkwds := match bound with
    | none => kwds
    | some A => boundKwargsRec f.params A
  (policyCalcKeys v pfx name key f, calc_hash f (some hargs) (some hkwds))

/-- The redis-side cache content for one key pair: an association list
from signature hash to serialized payload. -/
structure Store where
  entries : List (Bytes × Bytes)
deriving DecidableEq, Repr

/-- Modelled from the spec: the get Lua script (the `.lua` sources are
not shipped under `src/`).  Per the atomic-script contract it returns
the raw serialized value on hit and nil on miss; it may refresh TTL and
ordering metadata but never inserts or removes payload entries, which is
all the model keeps. -/
def luaGet (st : Store) (h : Bytes) : Option Bytes := st.entries.lookup h

/-- Modelled from the spec: the put Lua script (the `.lua` sources are
not shipped under `src/`).  It inserts or overwrites the payload entry;
when the cardinality would exceed `maxsize` it first evicts exactly one
policy-chosen entry (the victim choice is abstracted here as the oldest
stored entry). -/
def luaPut (st : Store) (h v : Bytes) (maxsize : Nat) : Store :=
  if (st.entries.lookup h).isSome then
    ⟨st.entries.map fun kv => if kv.1 == h then (kv.1, v) else kv⟩
  else if maxsize ≤ st.entries.length then
    ⟨st.entries.tail ++ [(h, v)]⟩
  else
    ⟨st.entries ++ [(h, v)]⟩

/-- The exceptions a decorated call can surface: `CacheMissError`, or an
exception raised by the wrapped function (identified by a code). -/
inductive ExecErr where
  | cacheMiss
  | userExc (code : Nat)
deriving DecidableEq, Repr

deriving instance DecidableEq for Except

/-- Observable outcome of one `RedisFuncCache.exec` call: the returned
value or propagated exception, whether the wrapped function was invoked,
whether the put script was invoked, and the store afterwards. -/
structure ExecOut where
  result : Except ExecErr JVal
  funcInvoked : Bool
  putInvoked : Bool
  store : Store
deriving DecidableEq, Repr

/-- Embedding of `RedisFuncCache.exec` (the synchronous and asynchronous
variants have identical control flow modulo await points): attempt the
get script only when the mode allows reading; on a non-nil payload
deserialize and return immediately; otherwise raise `CacheMissError`
when execution is disallowed; otherwise invoke the wrapped function with
the original unfiltered arguments, propagating its exception; on success
invoke the put script only when the mode allows writing.  The wrapped
function is modelled by `impl`, mapping the original arguments to its
returned value or raised exception. -/
def cacheExec (mode : Mode) (st : Store) (v : PolicyVariant)
    (pfx name key : String) (f : PyFunc)
    (impl : List JVal → List (String × JVal) → Except Nat JVal)
    (args : List JVal) (kwds : List (String × JVal))
    (bound : Option (List (String × JVal)))
    (ser : JVal → Bytes) (deser : Bytes → JVal) (maxsize : Nat) : ExecOut :=
  let hashv := (prepare v pfx name key f args kwds bound).2
  let cached : Option Bytes := if mode.read then luaGet st hashv else none
  match cached with
  | some payload => ⟨Except.ok (deser payload), false, false, st⟩
  | none =>
    if !mode.exec then ⟨Except.error ExecErr.cacheMiss, false, false, st⟩
    else
      match impl args kwds with
      | Except.error e => ⟨Except.error (ExecErr.userExc e), true, false, st⟩
      | Except.ok retval =>
        if mode.write then
          ⟨Except.ok retval, true, true, luaPut st hashv (ser retval) maxsize⟩
        else
          ⟨Except.ok retval, true, false, st⟩

/-- Embedding of the wrapper produced by `RedisFuncCache.decorate`:
compute the filtered bound view with `make_bound`, then run `exec`.
`none` is the `TypeError` raised by `Signature.bind` before `exec`
runs. -/
def wrapperCall (mode : Mode) (st : Store) (v : PolicyVariant)
    (pfx name key : String) (f : PyFunc)
    (impl : List JVal → List (String × JVal) → Except Nat JVal)
    (args : List JVal) (kwds : List (String × JVal))
    (excl : List String) (exclPos : List Nat)
    (ser : JVal → Bytes) (deser : Bytes → JVal) (maxsize : Nat) : Option ExecOut :=
  (make_bound f args kwds excl exclPos).map fun bound =>
    cacheExec mode st v pfx name key f impl args kwds bound ser deser maxsize

/-- A context variable holding a value of type `α`, as used for the
per-task mode (a single logical task is modelled). -/
structure CtxVar (α : Type) where
  current : α

/-- A `contextvars.Token`: records the value the variable had when
`set` was called. -/
structure CtxToken (α : Type) where
  old : α

/-- Embedding of `ContextVar.set`: returns the token and the updated
variable. -/
def CtxVar.set (v : CtxVar α) (x : α) : CtxToken α × CtxVar α :=
  (⟨v.current⟩, ⟨x⟩)

/-- Embedding of `ContextVar.reset`: restores the value recorded by the
token. -/
def CtxVar.reset (_ : CtxVar α) (t : CtxToken α) : CtxVar α := ⟨t.old⟩

/-- Embedding of `RedisFuncCache.mode_context`: set the mode, run the
body (which may itself read and set the variable, and may end in an
error), and restore via the token in a `finally` block regardless of the
outcome. -/
def mode_context (cv : CtxVar Mode) (mode : Mode)
    (body : CtxVar Mode → Except ε α × CtxVar Mode) : Except ε α × CtxVar Mode :=
  let s := cv.set mode
  let r := body s.2
  (r.1, r.2.reset s.1)

/-- Embedding of `RedisFuncCache.disable_rw`: `mode_context` with the
current mode's read and write flags cleared (`dataclasses.replace`). -/
def disable_rw (cv : CtxVar Mode)
    (body : CtxVar Mode → Except ε α × CtxVar Mode) : Except ε α × CtxVar Mode :=
  mode_context cv { cv.current with read := false, write := false } body

/-- Embedding of `RedisFuncCache.read_only`. -/
def read_only (cv : CtxVar Mode)
    (body : CtxVar Mode → Except ε α × CtxVar Mode) : Except ε α × CtxVar Mode :=
  mode_context cv { cv.current with read := true, write := false } body

/-- Embedding of `RedisFuncCache.write_only`. -/
def write_only (cv : CtxVar Mode)
    (body : CtxVar Mode → Except ε α × CtxVar Mode) : Except ε α × CtxVar Mode :=
  mode_context cv { cv.current with read := false, write := true } body

/-- A heap of `Mode` objects: Python object identity is an address, the
context variable holds the address of the active `Mode`, and `nextAddr`
is the allocation frontier. -/
structure ModeHeap where
  mem : Nat → Mode
  nextAddr : Nat
  active : Nat

/-- Point update of the heap. -/
def heapWrite (m : Nat → Mode) (a : Nat) (x : Mode) : Nat → Mode :=
  fun i => if i = a then x else m i

/-- The mode the cache currently observes (what `self._mode.get()` reads
inside `exec`). -/
def activeMode (s : ModeHeap) : Mode := s.mem s.active

/-- Embedding of `RedisFuncCache.get_mode`: `copy(self._mode.get())`
allocates a fresh `Mode` object holding the active mode's field values
and returns its address; the context variable still points at the
original object. -/
def get_mode (s : ModeHeap) : Nat × ModeHeap :=
  (s.nextAddr, ⟨heapWrite s.mem s.nextAddr (s.mem s.active), s.nextAddr + 1, s.active⟩)

/-- In-place mutation of a `Mode` object through a reference, as a caller
mutating the object returned by `get_mode` would do. -/
def mutateMode (s : ModeHeap) (a : Nat) (f : Mode → Mode) : ModeHeap :=
  ⟨heapWrite s.mem a (f (s.mem a)), s.nextAddr, s.active⟩

/-- Embedding of `RedisFuncCache.set_mode`: point the context variable at
the given `Mode` object. -/
def set_mode (s : ModeHeap) (a : Nat) : ModeHeap := ⟨s.mem, s.nextAddr, a⟩

/-- The `client` constructor argument: either a non-callable object
(`obj none` is Python `None`) or a zero-argument factory. -/
inductive ClientArg (C : Type) where
  | obj : Option C → ClientArg C
  | factory : (Unit → C) → ClientArg C

/-- The state a successful `RedisFuncCache.__init__` leaves behind. -/
structure CacheObj (C : Type) where
  name : String
  pfx : String
  maxsize : Int
  ttl : Int
  updateTtl : Bool
  redisInstance : Option C
  redisFactory : Option (Unit → C)

/-- The `ValueError`s the constructor's property setters can raise. -/
inductive InitErr where
  | valueError (msg : String)
deriving DecidableEq, Repr

/-- The `RuntimeError` raised by `get_client` when neither a client
instance nor a factory is available. -/
inductive ClientErr where
  | runtimeError
deriving DecidableEq, Repr

/-- Model of `str.strip()`: drop leading and trailing whitespace. -/
def pyStrip (s : String) : String :=
  String.mk (((s.data.dropWhile Char.isWhitespace).reverse.dropWhile
    Char.isWhitespace).reverse)

/-- Embedding of `RedisFuncCache.__init__`: the property setters run in
order (`name`, `prefix`, `maxsize`, `ttl`), each raising `ValueError`
eagerly; the `client` argument is stored as a factory when callable and
as an instance otherwise, with no validation of its presence. -/
def cacheInit (name pfx : String) (maxsize ttl : Int) (updateTtl : Bool)
    (client : ClientArg C) : Except InitErr (CacheObj C) :=
  let nameV := pyStrip name
  if nameV = "" then Except.error (InitErr.valueError "name must be a non-empty string")
  else
    let pfxV := pyStrip pfx
    if pfxV = "" then Except.error (InitErr.valueError "prefix must be a non-empty string")
    else if !(0 < maxsize) then Except.error (InitErr.valueError "maxsize must be a greater than 0")
    else if !(0 < ttl) then Except.error (InitErr.valueError "ttl must be a greater than 0")
    else
      match client with
      | .factory fac => Except.ok ⟨nameV, pfxV, maxsize, ttl, updateTtl, none, some fac⟩
      | .obj o => Except.ok ⟨nameV, pfxV, maxsize, ttl, updateTtl, o, none⟩

/-- Embedding of `RedisFuncCache.get_client`: return the stored instance
if truthy, else invoke the factory if present, else raise
`RuntimeError`. -/
def get_client (c : CacheObj C) : Except ClientErr C :=
  match c.redisInstance with
  | some x => Except.ok x
  | none =>
    match c.redisFactory with
    | some fac => Except.ok (fac ())
    | none => Except.error ClientErr.runtimeError

/-- A script handle, as produced by `client.register_script`: it stays
bound to the client it was registered against.  The second component
distinguishes the get script (0) from the put script (1). -/
abbrev ScriptHandle (C : Type) := C × Nat

/-- The mutable part of `AbstractPolicy` relevant to script resolution:
`self._lua_scripts`, initially `None`. -/
structure PolicyScriptState (C : Type) where
  luaScripts : Option (ScriptHandle C × ScriptHandle C)

/-- Embedding of the `AbstractPolicy.lua_scripts` property: on first
access register the two scripts against the cache's current client and
cache the handles; afterwards return the cached handles unconditionally.
`client` is the value of `self.cache.client` at access time. -/
def lua_scripts (client : C) (ps : PolicyScriptState C) :
    (ScriptHandle C × ScriptHandle C) × PolicyScriptState C :=
  match ps.luaScripts with
  | some h => (h, ps)
  | none =>
    let h := ((client, 0), (client, 1))
    (h, ⟨some h⟩)

/-! Concrete sample objects used by the witness theorems. -/

/-- A sample decorated function: two positional-or-keyword parameters. -/
def sampleFunc : PyFunc := ⟨"m", "f", [1, 2], ["x", "conn"]⟩

/-- A sample serializer (the JSON codec on scalar values). -/
def sampleSer (v : JVal) : Bytes := strBytes v.json

/-- A sample deserializer. -/
def sampleDeser (b : Bytes) : JVal := JVal.num (Int.ofNat b.length)

/-- A sample wrapped-function body that returns normally. -/
def sampleImplOk : List JVal → List (String × JVal) → Except Nat JVal :=
  fun a _ => Except.ok (JVal.num (Int.ofNat a.length))

/-- A sample wrapped-function body that always raises exception 13. -/
def sampleImplRaise : List JVal → List (String × JVal) → Except Nat JVal :=
  fun _ _ => Except.error 13

/-! Claim C1. -/

/-- Claim C1: whenever the current mode allows reading and the get script
returns a non-nil cached payload, `exec` deserializes that payload via
the effective deserializer and returns it immediately; the wrapped
function is not invoked and the put script is not invoked, and the store
is untouched. -/
theorem exec_hit_returns_without_invocation
    (mode : Mode) (st : Store) (v : PolicyVariant) (pfx name key : String)
    (f : PyFunc) (impl : List JVal → List (String × JVal) → Except Nat JVal)
    (args : List JVal) (kwds : List (String × JVal))
    (bound : Option (List (String × JVal)))
    (ser : JVal → Bytes) (deser : Bytes → JVal) (maxsize : Nat) (payload : Bytes)
    (hread : mode.read = true)
    (hhit : luaGet st ((prepare v pfx name key f args kwds bound).2) = some payload) :
    cacheExec mode st v pfx name key f impl args kwds bound ser deser maxsize =
      ⟨Except.ok (deser payload), false, false, st⟩ := by
  unfold cacheExec
  simp [hread, hhit]

/-- Witness for C1 at a concrete hit. -/
theorem exec_hit_returns_without_invocation_witness :
    cacheExec {} ⟨[((prepare .single "p:" "n" "lru" sampleFunc [] [] none).2, [7])]⟩
        .single "p:" "n" "lru" sampleFunc sampleImplOk [] [] none
        sampleSer sampleDeser 3 =
      ⟨Except.ok (sampleDeser [7]), false, false,
        ⟨[((prepare .single "p:" "n" "lru" sampleFunc [] [] none).2, [7])]⟩⟩ :=
  exec_hit_returns_without_invocation {} _ .single "p:" "n" "lru" sampleFunc
    sampleImplOk [] [] none sampleSer sampleDeser 3 [7] rfl
    (by simp [luaGet, List.lookup])

/-! Claim C3. -/

/-- Claim C3: when the read step does not produce a cached value, the
mode allows execution, and the wrapped function raises, the exception
propagates unmodified, the put script is never invoked, and the store is
unchanged — so an identical subsequent call on the resulting store again
invokes the function and raises the same exception instead of being
served from cache. -/
theorem exec_exception_propagates_nothing_cached
    (mode : Mode) (st : Store) (v : PolicyVariant) (pfx name key : String)
    (f : PyFunc) (impl : List JVal → List (String × JVal) → Except Nat JVal)
    (args : List JVal) (kwds : List (String × JVal))
    (bound : Option (List (String × JVal)))
    (ser : JVal → Bytes) (deser : Bytes → JVal) (maxsize : Nat) (e : Nat)
    (hmiss : mode.read = false ∨
      luaGet st ((prepare v pfx name key f args kwds bound).2) = none)
    (hexec : mode.exec = true)
    (himpl : impl args kwds = Except.error e) :
    cacheExec mode st v pfx name key f impl args kwds bound ser deser maxsize =
      ⟨Except.error (ExecErr.userExc e), true, false, st⟩ ∧
    cacheExec mode
        (cacheExec mode st v pfx name key f impl args kwds bound ser deser maxsize).store
        v pfx name key f impl args kwds bound ser deser maxsize =
      ⟨Except.error (ExecErr.userExc e), true, false, st⟩ := by
  have hc : (if mode.read then
      luaGet st ((prepare v pfx name key f args kwds bound).2) else none) = none := by
    rcases hmiss with h | h
    · simp [h]
    · cases hr : mode.read <;> simp [h]
  have h1 : cacheExec mode st v pfx name key f impl args kwds bound ser deser maxsize =
      ⟨Except.error (ExecErr.userExc e), true, false, st⟩ := by
    unfold cacheExec
    simp only [hc, hexec, himpl]
    simp
  exact ⟨h1, by rw [h1]; exact h1⟩

/-- Witness for C3 at a concrete raising call. -/
theorem exec_exception_propagates_nothing_cached_witness :
    cacheExec {} ⟨[]⟩ .single "p:" "n" "lru" sampleFunc sampleImplRaise [] [] none
        sampleSer sampleDeser 3 =
      ⟨Except.error (ExecErr.userExc 13), true, false, ⟨[]⟩⟩ ∧
    cacheExec {}
        (cacheExec {} ⟨[]⟩ .single "p:" "n" "lru" sampleFunc sampleImplRaise [] [] none
          sampleSer sampleDeser 3).store
        .single "p:" "n" "lru" sampleFunc sampleImplRaise [] [] none
        sampleSer sampleDeser 3 =
      ⟨Except.error (ExecErr.userExc 13), true, false, ⟨[]⟩⟩ :=
  exec_exception_propagates_nothing_cached {} ⟨[]⟩ .single "p:" "n" "lru" sampleFunc
    sampleImplRaise [] [] none sampleSer sampleDeser 3 13
    (Or.inr (by simp [luaGet])) rfl rfl

/-! Claim C4. -/

/-- Claim C4: `exec` surfaces `CacheMissError` exactly when the current
mode's exec flag is false and the read step produced no cached value
(reading disabled, or the get script returned nil); with execution
allowed or on a cache hit, `CacheMissError` is never raised. -/
theorem exec_cache_miss_error_iff
    (mode : Mode) (st : Store) (v : PolicyVariant) (pfx name key : String)
    (f : PyFunc) (impl : List JVal → List (String × JVal) → Except Nat JVal)
    (args : List JVal) (kwds : List (String × JVal))
    (bound : Option (List (String × JVal)))
    (ser : JVal → Bytes) (deser : Bytes → JVal) (maxsize : Nat) :
    (cacheExec mode st v pfx name key f impl args kwds bound ser deser maxsize).result
        = Except.error ExecErr.cacheMiss ↔
      mode.exec = false ∧ (mode.read = false ∨
        luaGet st ((prepare v pfx name key f args kwds bound).2) = none) := by
  cases hr : mode.read <;> cases he : mode.exec <;>
    cases hg : luaGet st ((prepare v pfx name key f args kwds bound).2) <;>
      cases himpl : impl args kwds <;> cases hw : mode.write <;>
        simp [cacheExec, hr, he, hg, himpl, hw]

/-! Claim C2. -/

/-- Counterexample to C2 as stated: two keyword mappings with the same
name-to-value entries (a permutation, agreeing on both lookups) supplied
in different orders produce different digests, because `json.dumps`
preserves dict insertion order and `calc_hash` performs no
canonicalization. -/
theorem calc_hash_kwarg_order_changes_digest :
    ([("a", JVal.num 1), ("b", JVal.num 2)] : List (String × JVal)).Perm
        [("b", JVal.num 2), ("a", JVal.num 1)] ∧
    ([("a", JVal.num 1), ("b", JVal.num 2)] : List (String × JVal)).lookup "a" =
        ([("b", JVal.num 2), ("a", JVal.num 1)] : List (String × JVal)).lookup "a" ∧
    ([("a", JVal.num 1), ("b", JVal.num 2)] : List (String × JVal)).lookup "b" =
        ([("b", JVal.num 2), ("a", JVal.num 1)] : List (String × JVal)).lookup "b" ∧
    calc_hash sampleFunc (some []) (some [("a", JVal.num 1), ("b", JVal.num 2)]) ≠
      calc_hash sampleFunc (some []) (some [("b", JVal.num 2), ("a", JVal.num 1)]) := by
  refine ⟨by decide, rfl, rfl, by decide⟩

/-- Claim C2 (amended): `calc_hash` is a pure function of the serialized
argument structures — in particular calling it twice on identical inputs
yields an identical digest, and any two keyword mappings with the same
JSON rendering hash identically; but keyword-argument order is not
canonicalized, so equal-as-mapping dicts in different insertion orders
can produce different digests. -/
theorem calc_hash_deterministic_not_order_canonical :
    (∀ (f : PyFunc) (args : Option (List JVal)) (k1 k2 : List (String × JVal)),
      jsonKwds k1 = jsonKwds k2 →
        calc_hash f args (some k1) = calc_hash f args (some k2)) ∧
    calc_hash sampleFunc (some []) (some [("a", JVal.num 1), ("b", JVal.num 2)]) ≠
      calc_hash sampleFunc (some []) (some [("b", JVal.num 2), ("a", JVal.num 1)]) := by
  constructor
  · intro f args k1 k2 h
    simp only [calc_hash, serializedOpt]
    rw [h]
  · decide

/-- Witness for the amended C2: the determinism half applied at a
concrete keyword mapping. -/
theorem calc_hash_deterministic_not_order_canonical_witness :
    calc_hash sampleFunc (some []) (some [("a", JVal.num 1)]) =
      calc_hash sampleFunc (some []) (some [("a", JVal.num 1)]) :=
  calc_hash_deterministic_not_order_canonical.1 sampleFunc (some [])
    [("a", JVal.num 1)] [("a", JVal.num 1)] rfl

/-! Claim C9. -/

/-- Claim C9: for every policy variant and every function, the two keys
returned by `calc_keys` share one derivation prefix and differ only by
the fixed suffixes `":0"` and `":1"`; and for both cluster-tagged
variants the two keys contain an identical bracket-delimited hash-tag
substring. -/
theorem calc_keys_prefix_suffix_and_cluster_tag (pfx name key : String) (f : PyFunc) :
    (∀ v : PolicyVariant, ∃ k : String,
        (policyCalcKeys v pfx name key f).1 = k ++ ":0" ∧
        (policyCalcKeys v pfx name key f).2 = k ++ ":1") ∧
    (("\x7b" ++ name ++ ":" ++ key ++ "\x7d").data <:+:
        (policyCalcKeys .clusterSingle pfx name key f).1.data ∧
      ("\x7b" ++ name ++ ":" ++ key ++ "\x7d").data <:+:
        (policyCalcKeys .clusterSingle pfx name key f).2.data) ∧
    (("\x7b" ++ funcChecksum f ++ "\x7d").data <:+:
        (policyCalcKeys .clusterMultiple pfx name key f).1.data ∧
      ("\x7b" ++ funcChecksum f ++ "\x7d").data <:+:
        (policyCalcKeys .clusterMultiple pfx name key f).2.data) := by
  refine ⟨fun v => ?_, ⟨?_, ?_⟩, ⟨?_, ?_⟩⟩
  · cases v
    · exact ⟨pfx ++ name ++ ":" ++ key, rfl, rfl⟩
    · exact ⟨pfx ++ "\x7b" ++ name ++ ":" ++ key ++ "\x7d", rfl, rfl⟩
    · exact ⟨pfx ++ name ++ ":" ++ key ++ ":" ++ funcFullname f ++ "#" ++ funcChecksum f,
        rfl, rfl⟩
    · exact ⟨pfx ++ name ++ ":" ++ key ++ ":" ++ funcFullname f ++ "#" ++
        "\x7b" ++ funcChecksum f ++ "\x7d", rfl, rfl⟩
  · exact ⟨pfx.data, ":0".data, by
      simp [policyCalcKeys, clusterSingleCalcKeys, String.data_append]⟩
  · exact ⟨pfx.data, ":1".data, by
      simp [policyCalcKeys, clusterSingleCalcKeys, String.data_append]⟩
  · exact ⟨(pfx ++ name ++ ":" ++ key ++ ":" ++ funcFullname f ++ "#").data, ":0".data, by
      simp [policyCalcKeys, clusterMultipleCalcKeys, String.data_append]⟩
  · exact ⟨(pfx ++ name ++ ":" ++ key ++ ":" ++ funcFullname f ++ "#").data, ":1".data, by
      simp [policyCalcKeys, clusterMultipleCalcKeys, String.data_append]⟩

/-! Claim C5. -/

/-- Two bound-argument mappings "differ only in excluded arguments":
entry by entry the parameter names agree, and wherever the position is
not excluded and the name is not excluded the values agree as well. -/
def agreeOutsideExcl (excl : List String) (exclPos : List Nat) :
    Nat → List (String × JVal) → List (String × JVal) → Bool
  | _, [], [] => true
  | i, (k1, v1) :: as, (k2, v2) :: bs =>
    decide (k1 = k2) && (exclPos.contains i || excl.contains k1 || decide (v1 = v2)) &&
      agreeOutsideExcl excl exclPos (i + 1) as bs
  | _, _, _ => false

/-- After positional filtering: names agree entrywise and values agree
outside the name exclusions. -/
def pairAgree (excl : List String) : List (String × JVal) → List (String × JVal) → Bool
  | [], [] => true
  | (k1, v1) :: as, (k2, v2) :: bs =>
    decide (k1 = k2) && (excl.contains k1 || decide (v1 = v2)) && pairAgree excl as bs
  | _, _ => false

/-- Positional filtering preserves the agreement relation, turning it
into entrywise agreement outside the name exclusions. -/
theorem pairAgree_filterPos (excl : List String) (exclPos : List Nat) :
    ∀ (i : Nat) (A1 A2 : List (String × JVal)),
      agreeOutsideExcl excl exclPos i A1 A2 = true →
      pairAgree excl
        (((List.enumFrom i A1).filter fun ia => !(exclPos.contains ia.1)).map Prod.snd)
        (((List.enumFrom i A2).filter fun ia => !(exclPos.contains ia.1)).map Prod.snd)
        = true := by
  intro i A1
  induction A1 generalizing i with
  | nil =>
    intro A2 h
    cases A2 with
    | nil => rfl
    | cons b bs => simp [agreeOutsideExcl] at h
  | cons a as ih =>
    intro A2 h
    cases A2 with
    | nil =>
      obtain ⟨ka, va⟩ := a
      simp [agreeOutsideExcl] at h
    | cons b bs =>
      obtain ⟨ka, va⟩ := a
      obtain ⟨kb, vb⟩ := b
      simp only [agreeOutsideExcl, Bool.and_eq_true, decide_eq_true_eq] at h
      obtain ⟨⟨hk, hor⟩, hrest⟩ := h
      have ihr := ih (i + 1) bs hrest
      simp only [List.enumFrom, List.filter_cons]
      cases hpos : exclPos.contains i with
      | true =>
        simpa using ihr
      | false =>
        rw [hpos, Bool.false_or] at hor
        simp only [Bool.not_false, if_true, List.map_cons]
        simp only [pairAgree, Bool.and_eq_true, decide_eq_true_eq]
        exact ⟨⟨hk, hor⟩, ihr⟩

/-- Name filtering of entrywise-agreeing mappings yields equal lists. -/
theorem filterNames_eq_of_pairAgree (excl : List String) :
    ∀ A1 A2 : List (String × JVal), pairAgree excl A1 A2 = true →
      filterNames A1 excl = filterNames A2 excl := by
  intro A1
  induction A1 with
  | nil =>
    intro A2 h
    cases A2 with
    | nil => rfl
    | cons b bs => simp [pairAgree] at h
  | cons a as ih =>
    intro A2 h
    cases A2 with
    | nil => simp [pairAgree] at h
    | cons b bs =>
      obtain ⟨ka, va⟩ := a
      obtain ⟨kb, vb⟩ := b
      simp only [pairAgree, Bool.and_eq_true, decide_eq_true_eq] at h
      obtain ⟨⟨hk, hor⟩, hrest⟩ := h
      subst hk
      have ihr := ih bs hrest
      cases hex : excl.contains ka with
      | true =>
        simp only [filterNames, List.filter_cons, hex, Bool.not_true]
        simpa [filterNames] using ihr
      | false =>
        have hv : va = vb := by
          rw [hex, Bool.false_or] at hor
          exact of_decide_eq_true hor
        subst hv
        simp only [filterNames, List.filter_cons, hex, Bool.not_false, if_true]
        simpa [filterNames] using ihr

/-- Projecting the values back out of an enumeration recovers the list. -/
theorem map_snd_enumFrom (n : Nat) (A : List (String × JVal)) :
    (List.enumFrom n A).map Prod.snd = A := by
  induction A generalizing n with
  | nil => rfl
  | cons a as ih => simp [List.enumFrom, ih]

/-- Filtering by positions with an empty exclusion list is the identity. -/
theorem filterPositional_nil (A : List (String × JVal)) :
    filterPositional A [] = A := by
  simp only [filterPositional, List.contains_nil, Bool.not_false, List.filter_true]
  exact map_snd_enumFrom 0 A

/-- Filtering by names with an empty exclusion list is the identity. -/
theorem filterNames_nil (A : List (String × JVal)) : filterNames A [] = A := by
  simp [filterNames]

/-- The two conditional filters of `make_bound` compose to the
unconditional filter pipeline. -/
theorem make_boundArguments_normal (A : List (String × JVal)) (excl : List String)
    (exclPos : List Nat) :
    make_boundArguments A excl exclPos = filterNames (filterPositional A exclPos) excl := by
  unfold make_boundArguments
  cases exclPos with
  | nil =>
    cases excl with
    | nil => simp [filterPositional_nil, filterNames_nil]
    | cons e es => simp [filterPositional_nil]
  | cons p ps =>
    cases excl with
    | nil => simp [filterNames_nil]
    | cons e es => simp

/-- The composed `make_bound` filters send agreeing mappings to the same
filtered view. -/
theorem make_boundArguments_eq_of_agree (excl : List String) (exclPos : List Nat)
    (A1 A2 : List (String × JVal))
    (h : agreeOutsideExcl excl exclPos 0 A1 A2 = true) :
    make_boundArguments A1 excl exclPos = make_boundArguments A2 excl exclPos := by
  rw [make_boundArguments_normal, make_boundArguments_normal]
  apply filterNames_eq_of_pairAgree
  have hp := pairAgree_filterPos excl exclPos 0 A1 A2 h
  simpa [filterPositional, List.enum] using hp

/-- Association-list lookup skips a prefix in which the key is absent. -/
theorem lookup_append_of_none (l1 l2 : List (Bytes × Bytes)) (a : Bytes)
    (h : l1.lookup a = none) : (l1 ++ l2).lookup a = l2.lookup a := by
  induction l1 with
  | nil => rfl
  | cons kv l ih =>
    obtain ⟨k, v⟩ := kv
    cases hak : a == k with
    | true => simp [List.lookup, hak] at h
    | false =>
      simp only [List.cons_append, List.lookup, hak] at h ⊢
      exact ih h

/-- A put of a fresh entry into a store below capacity makes the entry
retrievable by the get script. -/
theorem luaGet_luaPut_fresh (st : Store) (h val : Bytes) (maxsize : Nat)
    (hmiss : luaGet st h = none) (hcap : st.entries.length < maxsize) :
    luaGet (luaPut st h val maxsize) h = some val := by
  have hm : st.entries.lookup h = none := hmiss
  unfold luaGet luaPut
  rw [hm]
  simp only [Option.isSome_none, Bool.false_eq_true, if_false]
  rw [if_neg (Nat.not_le.mpr hcap)]
  show (st.entries ++ [(h, val)]).lookup h = some val
  rw [lookup_append_of_none _ _ _ hm]
  simp [List.lookup]

/-- Claim C5: with exclusions configured, two calls whose bound argument
mappings differ only in excluded arguments (same parameter names, equal
values outside the excluded positions and names) produce the same
filtered bound view, hence the same key pair and the same signature
hash; the first (missing) call invokes the wrapped function with its own
original unfiltered arguments and writes the result, and the second call
is then served from cache without invoking the function. -/
theorem excludes_same_derivation_second_call_hits
    (f : PyFunc) (excl : List String) (exclPos : List Nat)
    (args1 args2 : List JVal) (kwds1 kwds2 : List (String × JVal))
    (A1 A2 : List (String × JVal)) (v : PolicyVariant) (pfx name key : String)
    (impl : List JVal → List (String × JVal) → Except Nat JVal)
    (st : Store) (ser : JVal → Bytes) (deser : Bytes → JVal) (maxsize : Nat)
    (r1 : JVal) (h1 : Bytes)
    (hne : (excl.isEmpty && exclPos.isEmpty) = false)
    (hb1 : pyBind f args1 kwds1 = some A1)
    (hb2 : pyBind f args2 kwds2 = some A2)
    (hagree : agreeOutsideExcl excl exclPos 0 A1 A2 = true)
    (hh1 : h1 = (prepare v pfx name key f args1 kwds1
        (some (make_boundArguments A1 excl exclPos))).2)
    (hmiss : luaGet st h1 = none)
    (hcap : st.entries.length < maxsize)
    (himpl : impl args1 kwds1 = Except.ok r1) :
    make_bound f args1 kwds1 excl exclPos =
        some (some (make_boundArguments A1 excl exclPos)) ∧
    make_bound f args2 kwds2 excl exclPos =
        some (some (make_boundArguments A2 excl exclPos)) ∧
    make_boundArguments A1 excl exclPos = make_boundArguments A2 excl exclPos ∧
    prepare v pfx name key f args1 kwds1 (some (make_boundArguments A1 excl exclPos)) =
      prepare v pfx name key f args2 kwds2 (some (make_boundArguments A2 excl exclPos)) ∧
    cacheExec ⟨true, true, true⟩ st v pfx name key f impl args1 kwds1
        (some (make_boundArguments A1 excl exclPos)) ser deser maxsize =
      ⟨Except.ok r1, true, true, luaPut st h1 (ser r1) maxsize⟩ ∧
    cacheExec ⟨true, true, true⟩ (luaPut st h1 (ser r1) maxsize) v pfx name key f impl
        args2 kwds2 (some (make_boundArguments A2 excl exclPos)) ser deser maxsize =
      ⟨Except.ok (deser (ser r1)), false, false, luaPut st h1 (ser r1) maxsize⟩ := by
  subst hh1
  have hfe := make_boundArguments_eq_of_agree excl exclPos A1 A2 hagree
  have hprep : prepare v pfx name key f args1 kwds1
        (some (make_boundArguments A1 excl exclPos)) =
      prepare v pfx name key f args2 kwds2
        (some (make_boundArguments A2 excl exclPos)) := by
    simp [prepare, hfe]
  refine ⟨?_, ?_, hfe, hprep, ?_, ?_⟩
  · simp [make_bound, hne, hb1]
  · simp [make_bound, hne, hb2]
  · simp [cacheExec, hmiss, himpl]
  · have hh2 : (prepare v pfx name key f args2 kwds2
        (some (make_boundArguments A2 excl exclPos))).2 =
      (prepare v pfx name key f args1 kwds1
        (some (make_boundArguments A1 excl exclPos))).2 := by rw [hprep]
    have hget := luaGet_luaPut_fresh st
      ((prepare v pfx name key f args1 kwds1
        (some (make_boundArguments A1 excl exclPos))).2) (ser r1) maxsize hmiss hcap
    simp [cacheExec, hh2, hget]

/-- Witness for C5: excluding the keyword `"conn"`, two calls differing
only in the `conn` value produce the same filtered bound view. -/
theorem excludes_same_derivation_second_call_hits_witness :
    make_boundArguments [("x", JVal.num 5), ("conn", JVal.num 1)] ["conn"] [] =
      make_boundArguments [("x", JVal.num 5), ("conn", JVal.num 2)] ["conn"] [] :=
  (excludes_same_derivation_second_call_hits sampleFunc ["conn"] []
    [JVal.num 5] [JVal.num 5] [("conn", JVal.num 1)] [("conn", JVal.num 2)]
    [("x", JVal.num 5), ("conn", JVal.num 1)] [("x", JVal.num 5), ("conn", JVal.num 2)]
    .single "p:" "n" "lru" sampleImplOk ⟨[]⟩ sampleSer sampleDeser 3 (JVal.num 1)
    ((prepare .single "p:" "n" "lru" sampleFunc [JVal.num 5] [("conn", JVal.num 1)]
      (some (make_boundArguments [("x", JVal.num 5), ("conn", JVal.num 1)] ["conn"] []))).2)
    rfl (by decide) (by decide) (by decide) rfl rfl (by decide) rfl).2.2.1

/-! Claim C6. -/

/-- Claim C6: entering a mode scope makes the given mode active for the
body, and on exit the prior mode is restored exactly — for an arbitrary
body (so in particular for bodies that end in an error, modelling an
exception, and bodies that themselves set the variable), for all four
scope constructors, and LIFO for nested scopes: the inner scope hands
back the outer scope's mode and the outer scope restores the original
one. -/
theorem mode_scopes_restore_prior_mode (m0 m1 m2 : Mode)
    (body inner : CtxVar Mode → Except Nat Unit × CtxVar Mode) (e : Nat)
    (g : CtxVar Mode → CtxVar Mode) :
    (mode_context ⟨m0⟩ m1 body).1 = (body ⟨m1⟩).1 ∧
    (mode_context ⟨m0⟩ m1 body).2.current = m0 ∧
    (mode_context ⟨m0⟩ m1 fun v =>
      ((Except.error e : Except Nat Unit), g v)).2.current = m0 ∧
    (disable_rw ⟨m0⟩ body).1 = (body ⟨{ m0 with read := false, write := false }⟩).1 ∧
    (disable_rw ⟨m0⟩ body).2.current = m0 ∧
    (read_only ⟨m0⟩ body).1 = (body ⟨{ m0 with read := true, write := false }⟩).1 ∧
    (read_only ⟨m0⟩ body).2.current = m0 ∧
    (write_only ⟨m0⟩ body).1 = (body ⟨{ m0 with read := false, write := true }⟩).1 ∧
    (write_only ⟨m0⟩ body).2.current = m0 ∧
    (mode_context ⟨m1⟩ m2 inner).2.current = m1 ∧
    (mode_context ⟨m0⟩ m1 fun v1 => mode_context v1 m2 inner).2.current = m0 := by
  refine ⟨rfl, rfl, rfl, rfl, rfl, rfl, rfl, rfl, rfl, rfl, rfl⟩

/-! Claim C7. -/

/-- Counterexample to C7 as stated: after the handles are registered
while the cache's client is 1, a later access made while the client is 2
still returns the handles bound to client 1 — `lua_scripts` performs no
re-resolution on client change, so not every script invocation uses
handles bound to the cache's current client. -/
theorem lua_scripts_not_rebound_on_client_change :
    (lua_scripts 1 (⟨none⟩ : PolicyScriptState Nat)).1 = ((1, 0), (1, 1)) ∧
    (lua_scripts 2 (lua_scripts 1 (⟨none⟩ : PolicyScriptState Nat)).2).1 = ((1, 0), (1, 1)) ∧
    (lua_scripts 2 (lua_scripts 1 (⟨none⟩ : PolicyScriptState Nat)).2).1 ≠ ((2, 0), (2, 1)) := by
  exact ⟨rfl, rfl, by decide⟩

/-- Claim C7 (amended): the two script handles are resolved lazily —
registered against the cache's active client on the first access and
cached in `_lua_scripts` — and every later access returns the cached
handles unchanged, even when the cache's client has changed in between;
no re-resolution ever happens for the policy's lifetime. -/
theorem lua_scripts_lazy_registration_cached_forever {C : Type} (c1 c2 : C) :
    (lua_scripts c1 (⟨none⟩ : PolicyScriptState C)).1 = ((c1, 0), (c1, 1)) ∧
    (lua_scripts c1 (⟨none⟩ : PolicyScriptState C)).2.luaScripts = some ((c1, 0), (c1, 1)) ∧
    (lua_scripts c2 (lua_scripts c1 (⟨none⟩ : PolicyScriptState C)).2).1 =
      (lua_scripts c1 (⟨none⟩ : PolicyScriptState C)).1 ∧
    (lua_scripts c2 (lua_scripts c1 (⟨none⟩ : PolicyScriptState C)).2).2 =
      (lua_scripts c1 (⟨none⟩ : PolicyScriptState C)).2 :=
  ⟨rfl, rfl, rfl, rfl⟩

/-! Claim C8. -/

/-- Counterexample to C8 as stated: a missing connection source (the
non-callable `None` passed as `client`) is accepted by the constructor —
no eager failure — and only the first `get_client` call raises
`RuntimeError`. -/
theorem init_accepts_missing_client_fails_on_first_use :
    cacheInit "n" "p:" 1 1 true (ClientArg.obj (none : Option Nat)) =
      Except.ok ⟨"n", "p:", 1, 1, true, none, none⟩ ∧
    get_client (⟨"n", "p:", 1, 1, true, none, none⟩ : CacheObj Nat) =
      Except.error ClientErr.runtimeError :=
  ⟨rfl, rfl⟩

/-- Claim C8 (amended): construction fails eagerly exactly when `name`
or `prefix` strips to the empty string or `maxsize`/`ttl` is
non-positive; the single `client` parameter cannot carry two conflicting
sources, and a missing client (`None`) is not validated at construction
(it surfaces only at first client access). -/
theorem cacheInit_error_iff_invalid_scalar_config {C : Type} (name pfx : String)
    (maxsize ttl : Int) (updateTtl : Bool) (client : ClientArg C) :
    (∃ e, cacheInit name pfx maxsize ttl updateTtl client = Except.error e) ↔
      (pyStrip name = "" ∨ pyStrip pfx = "" ∨ ¬0 < maxsize ∨ ¬0 < ttl) := by
  unfold cacheInit
  by_cases h1 : pyStrip name = ""
  · simp [h1]
  · by_cases h2 : pyStrip pfx = ""
    · simp [h1, h2]
    · by_cases h3 : (0 : Int) < maxsize
      · by_cases h4 : (0 : Int) < ttl
        · cases client <;> simp [h1, h2, h3, h4]
        · simp [h1, h2, h3, h4]
      · simp [h1, h2, h3]

/-! Claim C10. -/

/-- Claim C10: `get_mode` returns a copy — mutating the `Mode` object it
returns leaves the cache's active mode unchanged, both as observed
directly (what a decorated call would read) and by a subsequent
`get_mode`; only `set_mode` redirects the active mode, in particular to
the mutated object if it is set explicitly. -/
theorem get_mode_returns_copy (s : ModeHeap) (g : Mode → Mode)
    (hwf : s.active < s.nextAddr) :
    activeMode (mutateMode (get_mode s).2 (get_mode s).1 g) = activeMode s ∧
    (get_mode (mutateMode (get_mode s).2 (get_mode s).1 g)).2.mem
        (get_mode (mutateMode (get_mode s).2 (get_mode s).1 g)).1 = activeMode s ∧
    activeMode (set_mode (mutateMode (get_mode s).2 (get_mode s).1 g) (get_mode s).1) =
      g (activeMode s) := by
  have hne : s.active ≠ s.nextAddr := Nat.ne_of_lt hwf
  refine ⟨?_, ?_, ?_⟩ <;>
    simp [get_mode, mutateMode, set_mode, activeMode, heapWrite, hne]

/-- Witness for C10 on a one-object heap: clearing the read flag on the
copy returned by `get_mode` does not change the active mode. -/
theorem get_mode_returns_copy_witness :
    activeMode (mutateMode (get_mode ⟨fun _ => ⟨true, true, true⟩, 1, 0⟩).2
        (get_mode (⟨fun _ => ⟨true, true, true⟩, 1, 0⟩ : ModeHeap)).1
        (fun m => { m with read := false })) =
      activeMode ⟨fun _ => ⟨true, true, true⟩, 1, 0⟩ :=
  (get_mode_returns_copy ⟨fun _ => ⟨true, true, true⟩, 1, 0⟩
    (fun m => { m with read := false }) (by decide)).1

end RedisFuncCacheProof
